import Mathlib

/-!
Verification development for the AI-Middleware repository.

The definitions below are shallow embeddings of the TypeScript source:
pure functions become Lean functions, the Zustand store actions become
explicit state-transformers, the route handlers become functions from a
request and an in-memory database (a list of records) to a response and
the new database.  JavaScript numbers used as array indices and counts
are modelled as `Nat`; the JS `-1` sentinel of `Array.prototype.findIndex`
is modelled by `Option Nat`; JS `undefined`/absent fields are modelled by
`Option`.
-/

/-- Model of `Array.prototype.findIndex`: `none` stands for the JS `-1`
sentinel, `some i` for the first index whose element satisfies `p`. -/
def jsFindIndex (p : α → Bool) : List α → Option Nat
  | [] => none
  | a :: l => if p a then some 0 else (jsFindIndex p l).map (· + 1)

/-- `listStartsWith pat l` holds when `pat` occurs at the start of `l`
(the list form of a string `startsWith` test). -/
def listStartsWith [DecidableEq α] : List α → List α → Bool
  | [], _ => true
  | _ :: _, [] => false
  | p :: ps, a :: l => decide (p = a) && listStartsWith ps l

/-- Model of `String.prototype.includes` on exploded character lists:
`jsIncludes s pat` scans every start offset of `s` for an occurrence of
`pat`. -/
def jsIncludes [DecidableEq α] (s pat : List α) : Bool :=
  (List.range (s.length + 1)).any (fun i => listStartsWith pat (s.drop i))

/-- Model of `String.prototype.toLowerCase` as the character list of the
lowercased string. -/
def toLowerStr (s : String) : List Char :=
  s.data.map Char.toLower

/-- Model of `String.prototype.split` with a one-character separator. -/
def splitOnChar (sep : Char) : List Char → List (List Char)
  | [] => [[]]
  | c :: cs =>
    if c = sep then [] :: splitOnChar sep cs
    else
      match splitOnChar sep cs with
      | [] => [[c]]
      | g :: gs => (c :: g) :: gs

/-- Hexadecimal digit test used by the UUID format check. -/
def isHexChar (c : Char) : Bool :=
  c.isDigit || ('a' ≤ c && c ≤ 'f') || ('A' ≤ c && c ≤ 'F')

/-- Model of the `z.string().uuid()` format check: five dash-separated
groups of hex digits with lengths 8-4-4-4-12. -/
def isUuid (s : String) : Bool :=
  match splitOnChar '-' s.data with
  | [a, b, c, d, e] =>
    decide (a.length = 8) && decide (b.length = 4) && decide (c.length = 4) &&
    decide (d.length = 4) && decide (e.length = 12) &&
    (a ++ b ++ c ++ d ++ e).all isHexChar
  | _ => false

/-- JS truthiness of an optional string request field: the field is
truthy when it is present and non-empty. -/
def jsTruthy (o : Option String) : Bool :=
  match o with
  | none => false
  | some s => !s.isEmpty

namespace MessageConstructor

/-- `Column` from `src/components/MessageConstructor/store.ts`. -/
structure Column where
  id : String
  name : String
  selected : Bool
  order : Nat
  preface : Option String := none
  closing : Option String := none
deriving DecidableEq

/-- Model of `newColumns.map((col, index) => ({ ...col, order: index }))`
starting the index at `n`. -/
def reindexFrom : Nat → List Column → List Column
  | _, [] => []
  | n, col :: rest => { col with order := n } :: reindexFrom (n + 1) rest

/-- `reorderColumns` from the MessageConstructor store: find the indices
of the dragged and the target column, splice the dragged column out,
splice it back in at the target index, and renumber `order` by position.
When either id is missing (`findIndex` returns `-1`) the state is
returned unchanged. -/
def reorderColumns (activeId overId : String) (columns : List Column) : List Column :=
  match jsFindIndex (fun col => col.id == activeId) columns,
        jsFindIndex (fun col => col.id == overId) columns with
  | some oldIndex, some newIndex =>
    match columns[oldIndex]? with
    | none => columns
    | some movedColumn =>
      let removed := columns.take oldIndex ++ columns.drop (oldIndex + 1)
      let inserted := removed.take newIndex ++ movedColumn :: removed.drop newIndex
      reindexFrom 0 inserted
  | _, _ => columns

/-- Stable insert used to model `Array.prototype.sort`.  The element `c`
is placed before the first element whose `order` is not smaller, so
elements comparing equal keep their original relative order, as the
ECMAScript specification requires of `sort`. -/
def insertByOrder (c : Column) : List Column → List Column
  | [] => [c]
  | d :: ds => if c.order ≤ d.order then c :: d :: ds else d :: insertByOrder c ds

/-- Model of `[...columns].sort((a, b) => a.order - b.order)`: the stable
sort of the column list by ascending `order`. -/
def sortByOrder : List Column → List Column
  | [] => []
  | c :: cs => insertByOrder c (sortByOrder cs)

/-- `sortedAndFilteredColumns` from the MessageConstructor component:
sort by `order`, then keep the columns whose lowercased name contains
the lowercased search query. -/
def sortedAndFilteredColumns (columns : List Column) (debouncedSearchQuery : String) :
    List Column :=
  (sortByOrder columns).filter
    (fun col => jsIncludes (toLowerStr col.name) (toLowerStr debouncedSearchQuery))

end MessageConstructor

namespace CSVMessageConstructor

/-- `Column` from `src/components/CSVMessageConstructor/store.ts`
(no `order` field, unlike the MessageConstructor store). -/
structure Column where
  id : String
  name : String
  selected : Bool
  preface : Option String := none
  closing : Option String := none
deriving DecidableEq

/-- A `Partial<Column>` argument of `updateColumnConfig`: each field is
present (and overrides the column's value via object spread) or absent. -/
structure ColumnUpdates where
  id : Option String := none
  name : Option String := none
  selected : Option Bool := none
  preface : Option (Option String) := none
  closing : Option (Option String) := none
deriving DecidableEq

/-- Object spread `{ ...col, ...updates }`: every field present in
`updates` overrides the column's field. -/
def applyUpdates (col : Column) (u : ColumnUpdates) : Column :=
  { id := u.id.getD col.id
    name := u.name.getD col.name
    selected := u.selected.getD col.selected
    preface := u.preface.getD col.preface
    closing := u.closing.getD col.closing }

/-- The state of `useCSVMessageConstructorStore`. -/
structure StoreState where
  columns : List Column
  introduction : String
  conclusion : String
  searchQuery : String
  currentPage : Nat
  itemsPerPage : Nat
deriving DecidableEq

/-- `toggleColumnSelection` store action: flip `selected` on every
column whose id matches. -/
def toggleColumnSelection (columnId : String) (s : StoreState) : StoreState :=
  { s with columns := s.columns.map (fun col =>
      if col.id == columnId then { col with selected := !col.selected } else col) }

/-- `updateColumnConfig` store action: spread the supplied partial
update over every column whose id matches. -/
def updateColumnConfig (columnId : String) (updates : ColumnUpdates) (s : StoreState) :
    StoreState :=
  { s with columns := s.columns.map (fun col =>
      if col.id == columnId then applyUpdates col updates else col) }

/-- `selectAllColumns` store action: set `selected` on every column. -/
def selectAllColumns (selected : Bool) (s : StoreState) : StoreState :=
  { s with columns := s.columns.map (fun col => { col with selected := selected }) }

/-- `filteredColumns` from the CSVMessageConstructor component: keep the
columns whose lowercased name contains the lowercased search query. -/
def filteredColumns (columns : List Column) (debouncedSearchQuery : String) : List Column :=
  columns.filter
    (fun col => jsIncludes (toLowerStr col.name) (toLowerStr debouncedSearchQuery))

/-- `paginatedColumns` from the CSVMessageConstructor component:
`filtered.slice(start, start + itemsPerPage)` with
`start = (currentPage - 1) * itemsPerPage`. -/
def paginatedColumns (filtered : List Column) (currentPage itemsPerPage : Nat) : List Column :=
  (filtered.drop ((currentPage - 1) * itemsPerPage)).take itemsPerPage

/-- `totalPages = Math.ceil(filteredColumns.length / itemsPerPage)`. -/
def totalPages (filtered : List Column) (itemsPerPage : Nat) : Nat :=
  (filtered.length + itemsPerPage - 1) / itemsPerPage

end CSVMessageConstructor

namespace FilesApi

/-- `FileRecord` from the database types module (`@/types/files`). -/
structure FileRecord where
  id : String
  user_id : String
  s3_key : String
  original_name : String
  status : String
  error_message : Option String
  created_at : String
  last_processing_date : String
  processed_s3_key : Option String
deriving DecidableEq

/-- The values of the `FileStatus` union type declared in
`@/types/files`: `'uploaded' | 'processing' | 'completed' | 'failed'`. -/
def fileStatusValues : List String :=
  ["uploaded", "processing", "completed", "failed"]

/-- The status written by `POST /api/files/upload-url` when it inserts
the new file record. -/
def uploadUrlInsertStatus : String := "uploading"

/-- `validStatuses` from `PATCH /api/files/status`. -/
def validStatuses : List String :=
  ["uploading", "uploaded", "failed"]

/-- `getFileExtension` from `@/types/files`: split the name on `'.'`,
and if there is more than one part return the last one lowercased,
otherwise the empty string. -/
def getFileExtension (filename : String) : String :=
  let parts := splitOnChar '.' filename.data
  if parts.length > 1 then ⟨(parts.getLastD []).map Char.toLower⟩ else ""

/-- Supabase `.range(a, b)`: the rows from index `a` to index `b`
inclusive. -/
def supabaseRange (a b : Nat) (l : List α) : List α :=
  (l.drop a).take (b + 1 - a)

/-- The body of `PATCH /api/files/status` (`fileId`, `status`,
`error_message`), each field possibly absent. -/
structure PatchBody where
  fileId : Option String := none
  status : Option String := none
  error_message : Option String := none

/-- Outcome of the PATCH handler: the HTTP status of the response and
the files table after the request. -/
structure PatchResult where
  httpStatus : Nat
  db : List FileRecord

/-- The update applied to one matching row by `PATCH /api/files/status`:
`status` is always written; `error_message` is written when the body
supplies a truthy one, cleared when the new status is `'uploaded'`, and
left unchanged otherwise. -/
def applyStatusUpdate (body : PatchBody) (r : FileRecord) : FileRecord :=
  { r with
    status := body.status.getD ""
    error_message :=
      if jsTruthy body.error_message then body.error_message
      else if body.status.getD "" == "uploaded" then none
      else r.error_message }

/-- The `PATCH /api/files/status` handler over an in-memory files table:
reject missing/falsy `fileId` or `status` with 400, reject a status
outside `validStatuses` with 400, and otherwise update the rows whose
`id` and `user_id` match. -/
def patchFileStatus (sessionUserId : String) (body : PatchBody) (db : List FileRecord) :
    PatchResult :=
  if !jsTruthy body.fileId || !jsTruthy body.status then ⟨400, db⟩
  else if !(validStatuses.contains (body.status.getD "")) then ⟨400, db⟩
  else
    ⟨200, db.map (fun r =>
      if r.id == body.fileId.getD "" && r.user_id == sessionUserId
      then applyStatusUpdate body r else r)⟩

/-- The response body of `GET /api/files` (tree building aside): the
returned records, `totalCount`, `currentPage` and `totalPages`. -/
structure FilesListResponse where
  files : List FileRecord
  totalCount : Nat
  currentPage : Nat
  totalPages : Nat
deriving DecidableEq

/-- `Math.ceil(totalCount / pageSize)` of the route. -/
def filesTotalPages (totalCount pageSize : Nat) : Nat :=
  (totalCount + pageSize - 1) / pageSize

/-- The status filter of `GET /api/files`: `.eq('status', filterStatus)`
when a `filterStatus` query parameter is present. -/
def statusFiltered (rows : List FileRecord) (filterStatus : Option String) :
    List FileRecord :=
  match filterStatus with
  | some st => rows.filter (fun f => f.status == st)
  | none => rows

/-- The in-memory file-type filter of `GET /api/files`, applied after
pagination: keep files whose extension equals the lowercased
`filterType`. -/
def typeFiltered (files : List FileRecord) (filterType : Option String) :
    List FileRecord :=
  match filterType with
  | some t => files.filter (fun f =>
      getFileExtension f.original_name == (⟨t.data.map Char.toLower⟩ : String))
  | none => files

/-- The `GET /api/files` handler over an in-memory files table.  `rows`
stands for the result set of the Supabase query in its sort order: the
route counts the status-matching rows, derives `totalPages` from that
count, slices the page with `.range((page-1)*pageSize, page*pageSize-1)`,
applies the file-type filter in memory, and reports the length of the
type-filtered page as `totalCount`. -/
def filesGET (rows : List FileRecord) (page pageSize : Nat)
    (filterStatus filterType : Option String) : FilesListResponse :=
  let matching := statusFiltered rows filterStatus
  let totalPages := filesTotalPages matching.length pageSize
  let pageRows := supabaseRange ((page - 1) * pageSize) (page * pageSize - 1) matching
  let filteredFiles := typeFiltered pageRows filterType
  { files := filteredFiles
    totalCount := filteredFiles.length
    currentPage := page
    totalPages := totalPages }

end FilesApi

namespace FoldersApi

/-- A row of the `template_folders` table. -/
structure FolderRec where
  id : String
  user_id : String
  name : String
  parent_folder_id : Option String
deriving DecidableEq

/-- The body of `POST /api/folders`: `name`, and `parentFolderId` which
may be absent (`none`), present and null (`some none`), or present with
a value (`some (some pid)`). -/
structure CreateFolderBody where
  name : String
  parentFolderId : Option (Option String) := none
deriving DecidableEq

/-- `createFolderSchema.parse`: `name` must have length between 3 and
100 and a present non-null `parentFolderId` must be a UUID. -/
def createFolderSchema_parse (b : CreateFolderBody) : Option CreateFolderBody :=
  if 3 ≤ b.name.length ∧ b.name.length ≤ 100 then
    match b.parentFolderId with
    | some (some pid) => if isUuid pid then some b else none
    | _ => some b
  else none

/-- The `POST /api/folders` handler over an in-memory
`template_folders` table.  `newId` stands for the id the database
generates for the inserted row.  A validation failure answers 400; a
supplied parent folder that does not exist with the requester as owner
answers 404; otherwise the folder is inserted with
`parent_folder_id := validatedData.parentFolderId || null`. -/
def foldersPOST (userId newId : String) (body : CreateFolderBody) (db : List FolderRec) :
    Nat × List FolderRec :=
  match createFolderSchema_parse body with
  | none => (400, db)
  | some v =>
    match v.parentFolderId with
    | some (some pid) =>
      match db.find? (fun f => f.id == pid && f.user_id == userId) with
      | none => (404, db)
      | some _ => (200, db ++ [⟨newId, userId, v.name, some pid⟩])
    | _ => (200, db ++ [⟨newId, userId, v.name, none⟩])

end FoldersApi

namespace TemplateSchema

/-- The `z.enum(["csv", "txt"])` value set. -/
inductive TType where
  | csv
  | txt
deriving DecidableEq

/-- The `z.enum(["trim", "skipBlanks"])` value set of the validation
rules. -/
inductive VRule where
  | trim
  | skipBlanks
deriving DecidableEq

def parseTType (s : String) : Option TType :=
  if s = "csv" then some TType.csv
  else if s = "txt" then some TType.txt
  else none

def ttypeToString : TType → String
  | TType.csv => "csv"
  | TType.txt => "txt"

def parseVRule (s : String) : Option VRule :=
  if s = "trim" then some VRule.trim
  else if s = "skipBlanks" then some VRule.skipBlanks
  else none

def vruleToString : VRule → String
  | VRule.trim => "trim"
  | VRule.skipBlanks => "skipBlanks"

/-- Raw input of `columnSchema`: `preface` and `closing` may be absent. -/
structure ColumnInput where
  name : String
  preface : Option String := none
  closing : Option String := none
deriving DecidableEq

/-- Output of `columnSchema`: defaults are filled in. -/
structure ColumnParsed where
  name : String
  preface : String
  closing : String
deriving DecidableEq

/-- `columnSchema.parse`: `name` must be non-empty; `preface` and
`closing` default to `""`. -/
def columnSchema_parse (c : ColumnInput) : Option ColumnParsed :=
  if 1 ≤ c.name.length then
    some { name := c.name, preface := c.preface.getD "", closing := c.closing.getD "" }
  else none

def parseColumnList : List ColumnInput → Option (List ColumnParsed)
  | [] => some []
  | c :: cs =>
    match columnSchema_parse c, parseColumnList cs with
    | some p, some ps => some (p :: ps)
    | _, _ => none

/-- Raw input of `validationSchema`. -/
structure ValidationInput where
  rules : Option (List String) := none
  allowedValues : Option (List String) := none
  errorMessage : Option String := none
deriving DecidableEq

/-- Output of `validationSchema`: rules parsed into the enum, defaults
filled in, `allowedValues` passed through. -/
structure ValidationParsed where
  rules : List VRule
  allowedValues : Option (List String)
  errorMessage : String
deriving DecidableEq

def parseVRuleList : List String → Option (List VRule)
  | [] => some []
  | s :: ss =>
    match parseVRule s, parseVRuleList ss with
    | some r, some rs => some (r :: rs)
    | _, _ => none

/-- `validationSchema.parse`: `rules` defaults to `[]` and each entry
must be one of the two enum values; `errorMessage` defaults to `""`. -/
def validationSchema_parse (v : ValidationInput) : Option ValidationParsed :=
  match parseVRuleList (v.rules.getD []) with
  | some rs =>
    some { rules := rs, allowedValues := v.allowedValues, errorMessage := v.errorMessage.getD "" }
  | none => none

/-- Raw input of `templateConfigSchema`. -/
structure TemplateConfigInput where
  type : String
  intro : Option String := none
  columns : List ColumnInput
  conclusion : Option String := none
  validation : Option ValidationInput := none
deriving DecidableEq

/-- Output of `templateConfigSchema`. -/
structure TemplateConfigParsed where
  type : TType
  intro : String
  columns : List ColumnParsed
  conclusion : String
  validation : ValidationParsed
deriving DecidableEq

/-- `templateConfigSchema.parse`: `type` must be one of `csv`/`txt`,
`intro` and `conclusion` default to `""`, the columns are parsed by
`columnSchema`, and a missing `validation` defaults to
`{ rules: [], errorMessage: "" }` (whose parse also leaves
`allowedValues` absent). -/
def templateConfigSchema_parse (cfg : TemplateConfigInput) : Option TemplateConfigParsed :=
  match parseTType cfg.type, parseColumnList cfg.columns,
        (match cfg.validation with
         | some v => validationSchema_parse v
         | none => some { rules := [], allowedValues := none, errorMessage := "" }) with
  | some ty, some cols, some va =>
    some { type := ty, intro := cfg.intro.getD "", columns := cols,
           conclusion := cfg.conclusion.getD "", validation := va }
  | _, _, _ => none

/-- Raw input of `templateSchema` (the body of a save request):
`folderId` may be absent, null, or a string. -/
structure TemplateInput where
  id : Option String := none
  name : String
  description : Option String := none
  type : String
  config : TemplateConfigInput
  folderId : Option (Option String) := none
deriving DecidableEq

/-- Output of `templateSchema`. -/
structure TemplateParsed where
  id : Option String
  name : String
  description : Option String
  type : TType
  config : TemplateConfigParsed
  folderId : Option (Option String)
deriving DecidableEq

/-- `z.string().uuid().optional()`: an absent value passes, a present
value must be a UUID. -/
def parseOptionalUuid (o : Option String) : Option (Option String) :=
  match o with
  | none => some none
  | some s => if isUuid s then some (some s) else none

/-- `z.string().uuid().optional().nullable()`: absent and null pass, a
present string must be a UUID. -/
def parseNullableUuid (o : Option (Option String)) : Option (Option (Option String)) :=
  match o with
  | none => some none
  | some none => some (some none)
  | some (some s) => if isUuid s then some (some (some s)) else none

/-- `templateSchema.parse`: an optional `id` must be a UUID, `name` must
have at least 3 characters, `type` must be one of `csv`/`txt`, the
config is parsed by `templateConfigSchema`, and a present non-null
`folderId` must be a UUID.  This is the validation run by both
`saveTemplate` and `POST /api/templates/save` before writing. -/
def templateSchema_parse (t : TemplateInput) : Option TemplateParsed :=
  match parseOptionalUuid t.id,
        parseTType t.type,
        templateConfigSchema_parse t.config,
        parseNullableUuid t.folderId with
  | some idv, some ty, some cfg, some fv =>
    if 3 ≤ t.name.length then
      some { id := idv, name := t.name, description := t.description, type := ty,
             config := cfg, folderId := fv }
    else none
  | _, _, _, _ => none

/-- Serialization of a parsed column back to the JSON shape accepted by
`columnSchema`. -/
def serializeColumn (p : ColumnParsed) : ColumnInput :=
  { name := p.name, preface := some p.preface, closing := some p.closing }

/-- Serialization of a parsed validation object back to the JSON shape
accepted by `validationSchema`. -/
def serializeValidation (v : ValidationParsed) : ValidationInput :=
  { rules := some (v.rules.map vruleToString)
    allowedValues := v.allowedValues
    errorMessage := some v.errorMessage }

/-- Serialization of a parsed template config back to the JSON shape
accepted by `templateConfigSchema`. -/
def serializeTemplateConfig (p : TemplateConfigParsed) : TemplateConfigInput :=
  { type := ttypeToString p.type
    intro := some p.intro
    columns := p.columns.map serializeColumn
    conclusion := some p.conclusion
    validation := some (serializeValidation p.validation) }

end TemplateSchema

namespace Proofs

open MessageConstructor

theorem jsFindIndex_lt {p : α → Bool} :
    ∀ {l : List α} {i : Nat}, jsFindIndex p l = some i → i < l.length := by
  intro l
  induction l with
  | nil => intro i h; simp [jsFindIndex] at h
  | cons a t ih =>
    intro i h
    simp only [jsFindIndex] at h
    by_cases hp : p a
    · simp [hp] at h
      simp [← h]
    · simp [hp] at h
      obtain ⟨j, hj, rfl⟩ := h
      have := ih hj
      simpa using this

theorem jsFindIndex_getElem {p : α → Bool} :
    ∀ {l : List α} {i : Nat}, jsFindIndex p l = some i →
      ∃ x, l[i]? = some x ∧ p x = true := by
  intro l
  induction l with
  | nil => intro i h; simp [jsFindIndex] at h
  | cons a t ih =>
    intro i h
    simp only [jsFindIndex] at h
    by_cases hp : p a
    · simp [hp] at h
      exact ⟨a, by simp [← h], hp⟩
    · simp [hp] at h
      obtain ⟨j, hj, rfl⟩ := h
      obtain ⟨x, hx, hpx⟩ := ih hj
      exact ⟨x, by simpa using hx, hpx⟩

theorem reindexFrom_map_id :
    ∀ (n : Nat) (l : List Column),
      (reindexFrom n l).map Column.id = l.map Column.id := by
  intro n l
  induction l generalizing n with
  | nil => rfl
  | cons c t ih => simp [reindexFrom, ih]

/-- C1: column reorder is a stable permutation.  For every column list
and every pair of ids found by `findIndex` (the drag-end handler's
`active.id` and `over.id`), `reorderColumns` keeps the multiset of
column ids unchanged, keeps the relative order of all non-moved columns
unchanged, and places the moved column id at the target position. -/
theorem reorderColumns_stable_permutation
    (cols : List Column) (activeId overId : String) (i j : Nat)
    (hi : jsFindIndex (fun c => c.id == activeId) cols = some i)
    (hj : jsFindIndex (fun c => c.id == overId) cols = some j) :
    ((reorderColumns activeId overId cols).map Column.id).Perm (cols.map Column.id)
    ∧ ((reorderColumns activeId overId cols).map Column.id).filter (fun x => x != activeId)
        = (cols.map Column.id).filter (fun x => x != activeId)
    ∧ ((reorderColumns activeId overId cols).map Column.id)[j]? = some activeId := by
  have hilt := jsFindIndex_lt hi
  have hjlt := jsFindIndex_lt hj
  obtain ⟨moved, hmv, hpm⟩ := jsFindIndex_getElem hi
  have hma : moved.id = activeId := by simpa using hpm
  have hre : reorderColumns activeId overId cols
      = reindexFrom 0 ((cols.take i ++ cols.drop (i + 1)).take j
          ++ moved :: (cols.take i ++ cols.drop (i + 1)).drop j) := by
    simp [reorderColumns, hi, hj, hmv]
  set R : List Column := cols.take i ++ cols.drop (i + 1) with hR
  have hmapR : R.map Column.id
      = (cols.map Column.id).take i ++ (cols.map Column.id).drop (i + 1) := by
    simp [hR, List.map_take, List.map_drop]
  have hIdsEq : (reorderColumns activeId overId cols).map Column.id
      = (R.map Column.id).take j ++ activeId :: (R.map Column.id).drop j := by
    rw [hre, reindexFrom_map_id]
    simp [List.map_take, List.map_drop, hma]
  have hdecomp : cols.map Column.id
      = (cols.map Column.id).take i ++ activeId :: (cols.map Column.id).drop (i + 1) := by
    have hilt' : i < (cols.map Column.id).length := by simpa using hilt
    have hgm : (cols.map Column.id)[i]? = some activeId := by
      rw [List.getElem?_map, hmv]
      simp [hma]
    have hgm2 : (cols.map Column.id)[i]? = some ((cols.map Column.id)[i]) :=
      List.getElem?_eq_getElem hilt'
    have hgi : (cols.map Column.id)[i] = activeId := by
      rw [hgm2] at hgm
      exact Option.some.inj hgm
    conv_lhs => rw [← List.take_append_drop i (cols.map Column.id)]
    rw [List.drop_eq_getElem_cons hilt', hgi]
  refine ⟨?_, ?_, ?_⟩
  · rw [hIdsEq]
    have h1 : ((R.map Column.id).take j ++ activeId :: (R.map Column.id).drop j).Perm
        (activeId :: R.map Column.id) := by
      have hm := @List.perm_middle _ activeId
        ((R.map Column.id).take j) ((R.map Column.id).drop j)
      rwa [List.take_append_drop] at hm
    have h2 : (cols.map Column.id).Perm (activeId :: R.map Column.id) := by
      rw [hmapR]
      conv_lhs => rw [hdecomp]
      exact List.perm_middle
    exact h1.trans h2.symm
  · have hmid : ∀ (M N : List String),
        (M ++ activeId :: N).filter (fun x => x != activeId)
          = (M ++ N).filter (fun x => x != activeId) := by
      intro M N
      simp [List.filter_append, List.filter_cons]
    rw [hIdsEq]
    conv_rhs => rw [hdecomp]
    rw [hmid, hmid, List.take_append_drop, hmapR]
  · have hjR : j ≤ (R.map Column.id).length := by
      simp only [List.length_map, hR, List.length_append, List.length_take, List.length_drop]
      omega
    have hlen : ((R.map Column.id).take j).length = j := by
      simp only [List.length_take]
      omega
    rw [hIdsEq, List.getElem?_append_right (le_of_eq hlen), hlen, Nat.sub_self]
    simp

/-- Concrete input for the C1 witness. -/
def exCols : List Column :=
  [{ id := "c1", name := "Name", selected := false, order := 0 },
   { id := "c2", name := "Email", selected := true, order := 1 },
   { id := "c3", name := "Phone", selected := false, order := 2 }]

theorem reorderColumns_stable_permutation_witness :
    jsFindIndex (fun c => c.id == "c3") exCols = some 2
    ∧ jsFindIndex (fun c => c.id == "c1") exCols = some 0
    ∧ (((reorderColumns "c3" "c1" exCols).map Column.id).Perm (exCols.map Column.id)
       ∧ ((reorderColumns "c3" "c1" exCols).map Column.id).filter (fun x => x != "c3")
           = (exCols.map Column.id).filter (fun x => x != "c3")
       ∧ ((reorderColumns "c3" "c1" exCols).map Column.id)[0]? = some "c3") :=
  ⟨by decide, by decide,
   reorderColumns_stable_permutation exCols "c3" "c1" 2 0 (by decide) (by decide)⟩

theorem flatten_range_slices (l : List α) (s : Nat) :
    ∀ m : Nat, ((List.range m).map (fun k => (l.drop (k * s)).take s)).flatten
      = l.take (m * s) := by
  intro m
  induction m with
  | zero => simp
  | succ m ih =>
    rw [List.range_succ, List.map_append, List.flatten_append]
    simp only [List.map_cons, List.map_nil, List.flatten_cons, List.flatten_nil,
      List.append_nil]
    rw [ih, Nat.succ_mul, List.take_add]

theorem le_ceil_mul (n s : Nat) (hs : 0 < s) : n ≤ ((n + s - 1) / s) * s := by
  have hdm := Nat.div_add_mod (n + s - 1) s
  have hmod : (n + s - 1) % s < s := Nat.mod_lt _ hs
  rw [Nat.mul_comm]
  generalize hQ : s * ((n + s - 1) / s) = t at hdm ⊢
  generalize hR : (n + s - 1) % s = r at hdm hmod
  omega

theorem supabaseRange_page (l : List α) (s k : Nat) (hs : 0 < s) :
    FilesApi.supabaseRange (k * s) ((k + 1) * s - 1) l = (l.drop (k * s)).take s := by
  unfold FilesApi.supabaseRange
  congr 1
  rw [Nat.succ_mul]
  generalize k * s = t
  omega

theorem paginatedColumns_page (filtered : List CSVMessageConstructor.Column) (s k : Nat) :
    CSVMessageConstructor.paginatedColumns filtered (k + 1) s
      = (filtered.drop (k * s)).take s := by
  simp [CSVMessageConstructor.paginatedColumns]

theorem slices_adjacent (l : List α) (s k : Nat) :
    (l.drop (k * s)).take s ++ (l.drop ((k + 1) * s)).take s
      = (l.drop (k * s)).take (2 * s) := by
  rw [two_mul, List.take_add, List.drop_drop, Nat.succ_mul]

/-- C3: pagination is consistent.  For a fixed filtered column list (the
component) and a fixed row set (the files endpoint), adjacent pages
concatenate to one contiguous slice — no overlap and no skipped item —
and concatenating the pages from 1 to the last page yields exactly the
underlying list in order. -/
theorem pagination_consistent
    (filtered : List CSVMessageConstructor.Column) (rows : List FilesApi.FileRecord)
    (itemsPerPage page : Nat) (hs : 0 < itemsPerPage) (hp : 1 ≤ page) :
    (CSVMessageConstructor.paginatedColumns filtered page itemsPerPage
       ++ CSVMessageConstructor.paginatedColumns filtered (page + 1) itemsPerPage
     = (filtered.drop ((page - 1) * itemsPerPage)).take (2 * itemsPerPage))
    ∧ ((List.range (CSVMessageConstructor.totalPages filtered itemsPerPage)).map
         (fun k => CSVMessageConstructor.paginatedColumns filtered (k + 1) itemsPerPage)).flatten
        = filtered
    ∧ (FilesApi.supabaseRange ((page - 1) * itemsPerPage) (page * itemsPerPage - 1) rows
         ++ FilesApi.supabaseRange (page * itemsPerPage) ((page + 1) * itemsPerPage - 1) rows
       = (rows.drop ((page - 1) * itemsPerPage)).take (2 * itemsPerPage))
    ∧ ((List.range (FilesApi.filesTotalPages rows.length itemsPerPage)).map
         (fun k => FilesApi.supabaseRange (k * itemsPerPage) ((k + 1) * itemsPerPage - 1) rows)).flatten
        = rows := by
  obtain ⟨k, rfl⟩ : ∃ k, page = k + 1 := ⟨page - 1, by omega⟩
  refine ⟨?_, ?_, ?_, ?_⟩
  · rw [paginatedColumns_page, paginatedColumns_page]
    simpa using slices_adjacent filtered itemsPerPage k
  · simp only [paginatedColumns_page]
    rw [flatten_range_slices]
    apply List.take_of_length_le
    simpa [CSVMessageConstructor.totalPages] using
      le_ceil_mul filtered.length itemsPerPage hs
  · simp only [Nat.add_sub_cancel]
    rw [supabaseRange_page rows itemsPerPage k hs,
        supabaseRange_page rows itemsPerPage (k + 1) hs]
    exact slices_adjacent rows itemsPerPage k
  · have hrw : ∀ n, FilesApi.supabaseRange (n * itemsPerPage) ((n + 1) * itemsPerPage - 1) rows
        = (rows.drop (n * itemsPerPage)).take itemsPerPage :=
      fun n => supabaseRange_page rows itemsPerPage n hs
    simp only [hrw]
    rw [flatten_range_slices]
    apply List.take_of_length_le
    simpa [FilesApi.filesTotalPages] using le_ceil_mul rows.length itemsPerPage hs

/-- Concrete inputs for the C3 witness. -/
def exFiltered : List CSVMessageConstructor.Column :=
  [{ id := "a", name := "A", selected := false },
   { id := "b", name := "B", selected := true },
   { id := "c", name := "C", selected := false }]

/-- Concrete file row for the C3 witness. -/
def exRows : List FilesApi.FileRecord :=
  [{ id := "f1", user_id := "u1", s3_key := "uploads/u1/a.csv", original_name := "a.csv",
     status := "uploaded", error_message := none, created_at := "2024-01-01",
     last_processing_date := "2024-01-01", processed_s3_key := none }]

theorem pagination_consistent_witness :
    0 < 2 ∧ 1 ≤ 1
    ∧ ((CSVMessageConstructor.paginatedColumns exFiltered 1 2
         ++ CSVMessageConstructor.paginatedColumns exFiltered (1 + 1) 2
       = (exFiltered.drop ((1 - 1) * 2)).take (2 * 2))
      ∧ ((List.range (CSVMessageConstructor.totalPages exFiltered 2)).map
           (fun k => CSVMessageConstructor.paginatedColumns exFiltered (k + 1) 2)).flatten
          = exFiltered
      ∧ (FilesApi.supabaseRange ((1 - 1) * 2) (1 * 2 - 1) exRows
           ++ FilesApi.supabaseRange (1 * 2) ((1 + 1) * 2 - 1) exRows
         = (exRows.drop ((1 - 1) * 2)).take (2 * 2))
      ∧ ((List.range (FilesApi.filesTotalPages exRows.length 2)).map
           (fun k => FilesApi.supabaseRange (k * 2) ((k + 1) * 2 - 1) exRows)).flatten
          = exRows) :=
  ⟨by decide, by decide, pagination_consistent exFiltered exRows 2 1 (by decide) (by decide)⟩

theorem listStartsWith_iff [DecidableEq α] :
    ∀ (pat l : List α), listStartsWith pat l = true ↔ pat <+: l := by
  intro pat
  induction pat with
  | nil =>
    intro l
    constructor
    · intro _
      exact ⟨l, rfl⟩
    · intro _
      rfl
  | cons p ps ih =>
    intro l
    cases l with
    | nil =>
      constructor
      · intro h
        simp [listStartsWith] at h
      · rintro ⟨t, ht⟩
        simp at ht
    | cons a t =>
      constructor
      · intro h
        simp only [listStartsWith, Bool.and_eq_true, decide_eq_true_eq] at h
        obtain ⟨rfl, h2⟩ := h
        obtain ⟨u, hu⟩ := (ih t).mp h2
        exact ⟨u, by rw [List.cons_append, hu]⟩
      · rintro ⟨u, hu⟩
        rw [List.cons_append] at hu
        injection hu with h1 h2
        subst h1
        simp only [listStartsWith, Bool.and_eq_true, decide_eq_true_eq, eq_self_iff_true,
          true_and]
        exact (ih t).mpr ⟨u, h2⟩

theorem jsIncludes_iff [DecidableEq α] (s pat : List α) :
    jsIncludes s pat = true ↔ pat <:+: s := by
  unfold jsIncludes
  rw [List.any_eq_true]
  constructor
  · rintro ⟨i, _, hsw⟩
    rw [listStartsWith_iff] at hsw
    obtain ⟨u, hu⟩ := hsw
    refine ⟨s.take i, u, ?_⟩
    conv_rhs => rw [← List.take_append_drop i s]
    rw [← hu, List.append_assoc]
  · rintro ⟨u, v, huv⟩
    refine ⟨u.length, ?_, ?_⟩
    · rw [List.mem_range]
      have hlen := congrArg List.length huv
      simp only [List.length_append] at hlen
      omega
    · rw [listStartsWith_iff]
      rw [← huv, List.append_assoc, List.drop_left]
      exact ⟨v, rfl⟩

theorem jsIncludes_eq_decide [DecidableEq α] (s pat : List α) :
    jsIncludes s pat = decide (pat <:+: s) := by
  by_cases h : pat <:+: s
  · rw [(jsIncludes_iff s pat).mpr h, decide_eq_true h]
  · rw [decide_eq_false h, Bool.eq_false_iff]
    intro hc
    exact h ((jsIncludes_iff s pat).mp hc)

theorem jsIncludes_nil [DecidableEq α] (s : List α) : jsIncludes s [] = true := by
  rw [jsIncludes_iff]
  exact List.nil_infix

/-- C5: the column search filter is a case-insensitive substring match on
column names.  A column is retained iff the lowercased query is a
substring (contiguous infix) of its lowercased name, in the original
order in the CSV constructor and in order-sorted order in the
MessageConstructor, and the empty query returns the full set. -/
theorem search_filter_correct
    (cols : List CSVMessageConstructor.Column) (mcols : List MessageConstructor.Column)
    (q : String) :
    CSVMessageConstructor.filteredColumns cols q
      = cols.filter (fun col => decide ((toLowerStr q) <:+: (toLowerStr col.name)))
    ∧ CSVMessageConstructor.filteredColumns cols "" = cols
    ∧ MessageConstructor.sortedAndFilteredColumns mcols q
      = (MessageConstructor.sortByOrder mcols).filter
          (fun col => decide ((toLowerStr q) <:+: (toLowerStr col.name)))
    ∧ MessageConstructor.sortedAndFilteredColumns mcols ""
      = MessageConstructor.sortByOrder mcols := by
  have hnil : toLowerStr "" = [] := rfl
  refine ⟨?_, ?_, ?_, ?_⟩
  · unfold CSVMessageConstructor.filteredColumns
    simp only [jsIncludes_eq_decide]
  · unfold CSVMessageConstructor.filteredColumns
    rw [List.filter_eq_self]
    intro col _
    rw [hnil]
    exact jsIncludes_nil _
  · unfold MessageConstructor.sortedAndFilteredColumns
    simp only [jsIncludes_eq_decide]
  · unfold MessageConstructor.sortedAndFilteredColumns
    rw [List.filter_eq_self]
    intro col _
    rw [hnil]
    exact jsIncludes_nil _

open TemplateSchema in
theorem columnSchema_roundtrip {c : ColumnInput} {p : ColumnParsed}
    (hc : columnSchema_parse c = some p) :
    columnSchema_parse (serializeColumn p) = some p := by
  unfold columnSchema_parse at hc ⊢
  by_cases h1 : 1 ≤ c.name.length
  · rw [if_pos h1] at hc
    injection hc with hc
    subst hc
    simp [serializeColumn, h1]
  · rw [if_neg h1] at hc
    cases hc

open TemplateSchema in
theorem parseColumnList_roundtrip :
    ∀ {cs : List ColumnInput} {ps : List ColumnParsed},
      parseColumnList cs = some ps →
      parseColumnList (ps.map serializeColumn) = some ps := by
  intro cs
  induction cs with
  | nil =>
    intro ps h
    simp only [parseColumnList, Option.some.injEq] at h
    subst h
    rfl
  | cons c cs ih =>
    intro ps h
    simp only [parseColumnList] at h
    cases hc : columnSchema_parse c with
    | none => rw [hc] at h; simp at h
    | some p =>
      cases hcs : parseColumnList cs with
      | none => rw [hc, hcs] at h; simp at h
      | some ps' =>
        rw [hc, hcs] at h
        simp only [Option.some.injEq] at h
        subst h
        simp only [List.map_cons, parseColumnList, columnSchema_roundtrip hc, ih hcs]

open TemplateSchema in
theorem parseVRuleList_map_vruleToString :
    ∀ rs : List VRule, parseVRuleList (rs.map vruleToString) = some rs := by
  intro rs
  induction rs with
  | nil => rfl
  | cons r rs ih =>
    have hr : parseVRule (vruleToString r) = some r := by cases r <;> rfl
    simp [parseVRuleList, hr, ih]

open TemplateSchema in
theorem validationSchema_roundtrip (v : ValidationParsed) :
    validationSchema_parse (serializeValidation v) = some v := by
  unfold validationSchema_parse serializeValidation
  simp [parseVRuleList_map_vruleToString]

open TemplateSchema in
/-- C4: template config validation round-trips.  Any config accepted by
`templateConfigSchema` parses again, after serialization of the parsed
result, to the same parsed structure: filling the `intro`, `conclusion`,
`preface`, `closing` and `validation` defaults is idempotent. -/
theorem templateConfigSchema_roundtrip
    (cfg : TemplateConfigInput) (parsed : TemplateConfigParsed)
    (h : templateConfigSchema_parse cfg = some parsed) :
    templateConfigSchema_parse (serializeTemplateConfig parsed) = some parsed := by
  unfold templateConfigSchema_parse at h
  cases hty : parseTType cfg.type with
  | none => rw [hty] at h; simp at h
  | some ty =>
    cases hcols : parseColumnList cfg.columns with
    | none => rw [hty, hcols] at h; simp at h
    | some colsP =>
      cases hval : (match cfg.validation with
                    | some v => validationSchema_parse v
                    | none => some { rules := [], allowedValues := none, errorMessage := "" }) with
      | none => rw [hty, hcols, hval] at h; simp at h
      | some va =>
        rw [hty, hcols, hval] at h
        simp only [Option.some.injEq] at h
        subst h
        have h1 : parseTType (ttypeToString ty) = some ty := by cases ty <;> rfl
        have h2 : parseColumnList (colsP.map serializeColumn) = some colsP :=
          parseColumnList_roundtrip hcols
        simp [templateConfigSchema_parse, serializeTemplateConfig, h1, h2,
          validationSchema_roundtrip]

/-- Concrete config for the C4 witness. -/
def exCfgInput : TemplateSchema.TemplateConfigInput :=
  { type := "csv", columns := [{ name := "Name" }, { name := "Email", preface := some "Hi " }] }

/-- Parse of `exCfgInput`, with all defaults filled. -/
def exCfgParsed : TemplateSchema.TemplateConfigParsed :=
  { type := TemplateSchema.TType.csv
    intro := ""
    columns := [{ name := "Name", preface := "", closing := "" },
                { name := "Email", preface := "Hi ", closing := "" }]
    conclusion := ""
    validation := { rules := [], allowedValues := none, errorMessage := "" } }

theorem templateConfigSchema_roundtrip_witness :
    TemplateSchema.templateConfigSchema_parse exCfgInput = some exCfgParsed
    ∧ TemplateSchema.templateConfigSchema_parse
        (TemplateSchema.serializeTemplateConfig exCfgParsed) = some exCfgParsed :=
  ⟨by decide, templateConfigSchema_roundtrip exCfgInput exCfgParsed (by decide)⟩

/-- A template save request whose top-level `type` is `csv` while its
`config.type` is `txt`. -/
def exMismatch : TemplateSchema.TemplateInput :=
  { name := "My template", type := "csv",
    config := { type := "txt", columns := [{ name := "Name" }] } }

/-- The parse result of `exMismatch`. -/
def exMismatchParsed : TemplateSchema.TemplateParsed :=
  { id := none, name := "My template", description := none,
    type := TemplateSchema.TType.csv,
    config := { type := TemplateSchema.TType.txt, intro := "",
                columns := [{ name := "Name", preface := "", closing := "" }],
                conclusion := "", validation := { rules := [], allowedValues := none,
                                                  errorMessage := "" } },
    folderId := none }

/-- C2 counterexample: the validation schema (and hence the save
operation, which validates with it) accepts a template whose
`config.type` differs from its top-level `type`, so the claimed
rejection of mismatched templates is false. -/
theorem templateSchema_accepts_type_mismatch :
    TemplateSchema.templateSchema_parse exMismatch = some exMismatchParsed
    ∧ exMismatchParsed.config.type ≠ exMismatchParsed.type := by
  constructor
  · decide
  · decide

open TemplateSchema in
/-- C2 (amended): `templateSchema` checks `type` and `config.type` each
against the enum `csv`/`txt` — any other value is rejected — but it
never compares the two fields, so a template whose `config.type` differs
from its `type` is accepted. -/
theorem templateSchema_type_enum_guard
    (t : TemplateSchema.TemplateInput)
    (h : (t.type ≠ "csv" ∧ t.type ≠ "txt")
       ∨ (t.config.type ≠ "csv" ∧ t.config.type ≠ "txt")) :
    TemplateSchema.templateSchema_parse t = none := by
  have hpt : ∀ s : String, s ≠ "csv" → s ≠ "txt" → parseTType s = none := by
    intro s h1 h2
    unfold parseTType
    rw [if_neg h1, if_neg h2]
  rcases h with ⟨h1, h2⟩ | ⟨h1, h2⟩
  · unfold templateSchema_parse
    rw [hpt _ h1 h2]
    cases parseOptionalUuid t.id <;>
      cases templateConfigSchema_parse t.config <;>
        cases parseNullableUuid t.folderId <;> rfl
  · have hcfg : templateConfigSchema_parse t.config = none := by
      unfold templateConfigSchema_parse
      rw [hpt _ h1 h2]
    unfold templateSchema_parse
    rw [hcfg]
    cases parseOptionalUuid t.id <;>
      cases parseTType t.type <;>
        cases parseNullableUuid t.folderId <;> rfl

/-- A template save request with a `type` outside the enum. -/
def exBadType : TemplateSchema.TemplateInput :=
  { name := "My template", type := "pdf",
    config := { type := "csv", columns := [] } }

theorem templateSchema_type_enum_guard_witness :
    ((exBadType.type ≠ "csv" ∧ exBadType.type ≠ "txt")
       ∨ (exBadType.config.type ≠ "csv" ∧ exBadType.config.type ≠ "txt"))
    ∧ TemplateSchema.templateSchema_parse exBadType = none :=
  ⟨Or.inl ⟨by decide, by decide⟩,
   templateSchema_type_enum_guard exBadType (Or.inl ⟨by decide, by decide⟩)⟩

/-- A one-row files table used to exercise the status routes. -/
def exDb6 : List FilesApi.FileRecord :=
  [{ id := "f1", user_id := "u1", s3_key := "uploads/u1/data.csv", original_name := "data.csv",
     status := "uploading", error_message := none, created_at := "2024-01-01",
     last_processing_date := "2024-01-01", processed_s3_key := none }]

/-- C6: the code diverges from its own `FileStatus` declaration.  The
upload-url route inserts records with status `uploading`, which is not a
`FileStatus` value, while the PATCH route rejects the declared value
`processing` with a 400 response (leaving the table unchanged) and
accepts the undeclared value `uploading`. -/
theorem fileStatus_code_divergence :
    FilesApi.uploadUrlInsertStatus ∉ FilesApi.fileStatusValues
    ∧ (FilesApi.patchFileStatus "u1"
        { fileId := some "f1", status := some "processing" } exDb6).httpStatus = 400
    ∧ (FilesApi.patchFileStatus "u1"
        { fileId := some "f1", status := some "processing" } exDb6).db = exDb6
    ∧ "processing" ∈ FilesApi.fileStatusValues
    ∧ (FilesApi.patchFileStatus "u1"
        { fileId := some "f1", status := some "uploading" } exDb6).httpStatus = 200
    ∧ "uploading" ∉ FilesApi.fileStatusValues := by
  refine ⟨by decide, by decide, by decide, by decide, by decide, by decide⟩

open FoldersApi in
/-- C7: a folder's parent must belong to the same owner.  For every
folder-creation request that supplies a `parentFolderId` and passes the
schema, the handler answers 404 and leaves the table unchanged when no
folder with that id is owned by the requester, and any folder it inserts
is owned by the requester with the requested parent, which exists and is
owned by the same user. -/
theorem foldersPOST_parent_same_owner
    (userId newId : String) (body : CreateFolderBody) (db : List FolderRec) (pid : String)
    (hname : 3 ≤ body.name.length ∧ body.name.length ≤ 100)
    (hpid : body.parentFolderId = some (some pid))
    (huuid : isUuid pid = true) :
    ((∀ f ∈ db, ¬(f.id = pid ∧ f.user_id = userId)) →
        foldersPOST userId newId body db = (404, db))
    ∧ (∀ g ∈ (foldersPOST userId newId body db).2, g ∉ db →
        g.user_id = userId ∧ g.parent_folder_id = some pid
        ∧ ∃ f ∈ db, f.id = pid ∧ f.user_id = userId) := by
  have hparse : createFolderSchema_parse body = some body := by
    unfold createFolderSchema_parse
    rw [if_pos hname, hpid]
    simp [huuid]
  constructor
  · intro hno
    have hfind : db.find? (fun f => f.id == pid && f.user_id == userId) = none := by
      rw [List.find?_eq_none]
      intro f hf
      simp only [Bool.and_eq_true, beq_iff_eq, not_and]
      intro ha hb
      exact hno f hf ⟨ha, hb⟩
    simp [foldersPOST, hparse, hpid, hfind]
  · intro g hg hgnew
    cases hfind : db.find? (fun f => f.id == pid && f.user_id == userId) with
    | none =>
      have hres : foldersPOST userId newId body db = (404, db) := by
        simp [foldersPOST, hparse, hpid, hfind]
      rw [hres] at hg
      exact absurd hg hgnew
    | some f =>
      have hres : foldersPOST userId newId body db
          = (200, db ++ [⟨newId, userId, body.name, some pid⟩]) := by
        simp [foldersPOST, hparse, hpid, hfind]
      rw [hres] at hg
      simp only [List.mem_append, List.mem_singleton] at hg
      rcases hg with hg | hg
      · exact absurd hg hgnew
      · subst hg
        have hp := List.find?_some hfind
        simp only [Bool.and_eq_true, beq_iff_eq] at hp
        exact ⟨rfl, rfl, f, List.mem_of_find?_eq_some hfind, hp.1, hp.2⟩

/-- A folder table with one parent folder owned by `u1`. -/
def exFolderDb : List FoldersApi.FolderRec :=
  [{ id := "123e4567-e89b-12d3-a456-426614174000", user_id := "u1",
     name := "Projects", parent_folder_id := none }]

/-- A folder-creation request naming that parent. -/
def exFolderBody : FoldersApi.CreateFolderBody :=
  { name := "Reports",
    parentFolderId := some (some "123e4567-e89b-12d3-a456-426614174000") }

theorem foldersPOST_parent_same_owner_witness :
    (3 ≤ exFolderBody.name.length ∧ exFolderBody.name.length ≤ 100)
    ∧ exFolderBody.parentFolderId = some (some "123e4567-e89b-12d3-a456-426614174000")
    ∧ isUuid "123e4567-e89b-12d3-a456-426614174000" = true
    ∧ (((∀ f ∈ exFolderDb, ¬(f.id = "123e4567-e89b-12d3-a456-426614174000" ∧ f.user_id = "u1")) →
          FoldersApi.foldersPOST "u1" "new-id" exFolderBody exFolderDb = (404, exFolderDb))
       ∧ (∀ g ∈ (FoldersApi.foldersPOST "u1" "new-id" exFolderBody exFolderDb).2, g ∉ exFolderDb →
          g.user_id = "u1" ∧ g.parent_folder_id = some "123e4567-e89b-12d3-a456-426614174000"
          ∧ ∃ f ∈ exFolderDb, f.id = "123e4567-e89b-12d3-a456-426614174000" ∧ f.user_id = "u1")) :=
  ⟨⟨by decide, by decide⟩, by decide, by decide,
   foldersPOST_parent_same_owner "u1" "new-id" exFolderBody exFolderDb
     "123e4567-e89b-12d3-a456-426614174000" ⟨by decide, by decide⟩ (by decide) (by decide)⟩

theorem forall2_map_self {α : Type} (f : α → α) (P : α → α → Prop) (l : List α)
    (h : ∀ x, P x (f x)) : List.Forall₂ P l (l.map f) := by
  induction l with
  | nil => exact List.Forall₂.nil
  | cons a t ih => exact List.Forall₂.cons (h a) ih

theorem forall2_refl_of {α : Type} (P : α → α → Prop) (l : List α)
    (h : ∀ x, P x x) : List.Forall₂ P l l := by
  induction l with
  | nil => exact List.Forall₂.nil
  | cons a t ih => exact List.Forall₂.cons (h a) ih

open FilesApi in
/-- C8: the status update is the only mutation of a file record in this
codebase, and it changes only `status` and `error_message`.  Whatever
the request, every row keeps its `id`, `user_id`, `s3_key`,
`original_name`, `created_at`, `last_processing_date` and
`processed_s3_key`, rows not matching the requested `fileId` and the
session user are untouched, and a 400 response leaves the whole table
unchanged. -/
theorem patchFileStatus_frame (uid : String) (body : PatchBody) (db : List FileRecord) :
    ((patchFileStatus uid body db).httpStatus = 400 →
        (patchFileStatus uid body db).db = db)
    ∧ List.Forall₂ (fun r r' =>
        r'.id = r.id ∧ r'.user_id = r.user_id ∧ r'.s3_key = r.s3_key
        ∧ r'.original_name = r.original_name ∧ r'.created_at = r.created_at
        ∧ r'.last_processing_date = r.last_processing_date
        ∧ r'.processed_s3_key = r.processed_s3_key
        ∧ (¬(r.id = body.fileId.getD "" ∧ r.user_id = uid) → r' = r))
      db (patchFileStatus uid body db).db := by
  unfold patchFileStatus
  cases hb1 : (!jsTruthy body.fileId || !jsTruthy body.status) with
  | true =>
    rw [if_pos rfl]
    exact ⟨fun _ => rfl, forall2_refl_of _ _ (fun r => ⟨rfl, rfl, rfl, rfl, rfl, rfl, rfl,
      fun _ => rfl⟩)⟩
  | false =>
    rw [if_neg Bool.false_ne_true]
    cases hb2 : (!(validStatuses.contains (body.status.getD ""))) with
    | true =>
      rw [if_pos rfl]
      exact ⟨fun _ => rfl, forall2_refl_of _ _ (fun r => ⟨rfl, rfl, rfl, rfl, rfl, rfl, rfl,
        fun _ => rfl⟩)⟩
    | false =>
      rw [if_neg Bool.false_ne_true]
      constructor
      · intro h
        simp at h
      · apply forall2_map_self
        intro r
        by_cases hc : (r.id == body.fileId.getD "" && r.user_id == uid) = true
        · rw [if_pos hc]
          simp only [Bool.and_eq_true, beq_iff_eq] at hc
          exact ⟨rfl, rfl, rfl, rfl, rfl, rfl, rfl, fun hn => absurd hc hn⟩
        · rw [if_neg hc]
          exact ⟨rfl, rfl, rfl, rfl, rfl, rfl, rfl, fun _ => rfl⟩

theorem supabaseRange_length_le (a b : Nat) (l : List α) :
    (FilesApi.supabaseRange a b l).length ≤ b + 1 - a := by
  unfold FilesApi.supabaseRange
  exact List.length_take_le _ _

open FilesApi in
/-- C9: the counts reported by `GET /api/files` are inconsistent with
each other by construction.  `totalPages` is the ceiling of the
status-matching row count (before the in-memory file-type filter)
divided by `pageSize`, while `totalCount` is the length of the returned
page after the file-type filter; with no `filterType`, `totalCount` is
at most `pageSize`, not the total number of matching files. -/
theorem filesGET_count_semantics (rows : List FileRecord) (page pageSize : Nat)
    (filterStatus filterType : Option String) (hs : 0 < pageSize) :
    (filesGET rows page pageSize filterStatus filterType).totalPages
      = ((statusFiltered rows filterStatus).length + pageSize - 1) / pageSize
    ∧ (filesGET rows page pageSize filterStatus filterType).totalCount
      = (typeFiltered (supabaseRange ((page - 1) * pageSize) (page * pageSize - 1)
            (statusFiltered rows filterStatus)) filterType).length
    ∧ (filterType = none →
        (filesGET rows page pageSize filterStatus filterType).totalCount ≤ pageSize) := by
  refine ⟨rfl, rfl, ?_⟩
  intro hft
  subst hft
  show (typeFiltered (supabaseRange ((page - 1) * pageSize) (page * pageSize - 1)
          (statusFiltered rows filterStatus)) none).length ≤ pageSize
  unfold typeFiltered
  have h1 := supabaseRange_length_le ((page - 1) * pageSize) (page * pageSize - 1)
    (statusFiltered rows filterStatus)
  have h2 : page * pageSize - 1 + 1 - (page - 1) * pageSize ≤ pageSize := by
    cases page with
    | zero => simpa using hs
    | succ k =>
      rw [Nat.succ_mul, Nat.succ_sub_one]
      generalize k * pageSize = t
      omega
  exact le_trans h1 h2

/-- Concrete rows for the C9 witness. -/
def exRows9 : List FilesApi.FileRecord :=
  [{ id := "f1", user_id := "u1", s3_key := "uploads/u1/a.csv", original_name := "a.csv",
     status := "uploaded", error_message := none, created_at := "2024-01-01",
     last_processing_date := "2024-01-01", processed_s3_key := none },
   { id := "f2", user_id := "u1", s3_key := "uploads/u1/b.txt", original_name := "b.txt",
     status := "uploaded", error_message := none, created_at := "2024-01-02",
     last_processing_date := "2024-01-02", processed_s3_key := none }]

theorem filesGET_count_semantics_witness :
    0 < 1
    ∧ ((FilesApi.filesGET exRows9 1 1 none none).totalPages
        = ((FilesApi.statusFiltered exRows9 none).length + 1 - 1) / 1
      ∧ (FilesApi.filesGET exRows9 1 1 none none).totalCount
        = (FilesApi.typeFiltered (FilesApi.supabaseRange ((1 - 1) * 1) (1 * 1 - 1)
              (FilesApi.statusFiltered exRows9 none)) none).length
      ∧ (none = (none : Option String) →
          (FilesApi.filesGET exRows9 1 1 none none).totalCount ≤ 1)) :=
  ⟨by decide, filesGET_count_semantics exRows9 1 1 none none (by decide)⟩

/-- A store state with one column, for the C10 counterexample. -/
def exState : CSVMessageConstructor.StoreState :=
  { columns := [{ id := "c1", name := "Name", selected := false }],
    introduction := "", conclusion := "", searchQuery := "",
    currentPage := 1, itemsPerPage := 25 }

/-- C10 counterexample: `updateColumnConfig` takes a `Partial<Column>`,
so an update that supplies `id` changes the sequence of column ids,
contradicting the claim that every action preserves it. -/
theorem updateColumnConfig_can_change_ids :
    ((CSVMessageConstructor.updateColumnConfig "c1" { id := some "c2" } exState).columns.map
        CSVMessageConstructor.Column.id)
      ≠ exState.columns.map CSVMessageConstructor.Column.id := by
  decide

open CSVMessageConstructor in
theorem csv_map_id_of_preserve {f : CSVMessageConstructor.Column → CSVMessageConstructor.Column}
    (h : ∀ c, (f c).id = c.id) (l : List CSVMessageConstructor.Column) :
    (l.map f).map CSVMessageConstructor.Column.id = l.map CSVMessageConstructor.Column.id := by
  induction l with
  | nil => rfl
  | cons a t ih => simp [h a, ih]

open CSVMessageConstructor in
/-- C10 (amended): every action of the CSV message-constructor store
preserves the column list's length, and preserves the sequence of column
ids except that `updateColumnConfig` may change the id of the matching
column when the partial update itself supplies an `id`.
`toggleColumnSelection` flips only `selected` on the matching column,
`updateColumnConfig` changes only the supplied fields of the matching
column, `selectAllColumns` changes only the `selected` flag of every
column, and the `introduction`, `conclusion`, `searchQuery`,
`currentPage` and `itemsPerPage` state is unchanged by all three. -/
theorem csvStore_actions_frame (s : CSVMessageConstructor.StoreState)
    (cid : String) (u : CSVMessageConstructor.ColumnUpdates) (b : Bool) :
    ((toggleColumnSelection cid s).columns.length = s.columns.length
      ∧ (updateColumnConfig cid u s).columns.length = s.columns.length
      ∧ (selectAllColumns b s).columns.length = s.columns.length)
    ∧ ((toggleColumnSelection cid s).columns.map CSVMessageConstructor.Column.id = s.columns.map CSVMessageConstructor.Column.id
      ∧ (selectAllColumns b s).columns.map CSVMessageConstructor.Column.id = s.columns.map CSVMessageConstructor.Column.id
      ∧ (u.id = none →
          (updateColumnConfig cid u s).columns.map CSVMessageConstructor.Column.id = s.columns.map CSVMessageConstructor.Column.id))
    ∧ List.Forall₂ (fun c c' =>
        c'.id = c.id ∧ c'.name = c.name ∧ c'.preface = c.preface ∧ c'.closing = c.closing
        ∧ (c.id ≠ cid → c' = c) ∧ (c.id = cid → c'.selected = !c.selected))
        s.columns (toggleColumnSelection cid s).columns
    ∧ List.Forall₂ (fun c c' =>
        (c.id ≠ cid → c' = c)
        ∧ (c.id = cid → c' = applyUpdates c u)
        ∧ (u.id = none → c'.id = c.id) ∧ (u.name = none → c'.name = c.name)
        ∧ (u.selected = none → c'.selected = c.selected)
        ∧ (u.preface = none → c'.preface = c.preface)
        ∧ (u.closing = none → c'.closing = c.closing))
        s.columns (updateColumnConfig cid u s).columns
    ∧ List.Forall₂ (fun c c' =>
        c'.id = c.id ∧ c'.name = c.name ∧ c'.preface = c.preface ∧ c'.closing = c.closing
        ∧ c'.selected = b)
        s.columns (selectAllColumns b s).columns
    ∧ ((toggleColumnSelection cid s).introduction = s.introduction
      ∧ (toggleColumnSelection cid s).conclusion = s.conclusion
      ∧ (toggleColumnSelection cid s).searchQuery = s.searchQuery
      ∧ (toggleColumnSelection cid s).currentPage = s.currentPage
      ∧ (toggleColumnSelection cid s).itemsPerPage = s.itemsPerPage)
    ∧ ((updateColumnConfig cid u s).introduction = s.introduction
      ∧ (updateColumnConfig cid u s).conclusion = s.conclusion
      ∧ (updateColumnConfig cid u s).searchQuery = s.searchQuery
      ∧ (updateColumnConfig cid u s).currentPage = s.currentPage
      ∧ (updateColumnConfig cid u s).itemsPerPage = s.itemsPerPage)
    ∧ ((selectAllColumns b s).introduction = s.introduction
      ∧ (selectAllColumns b s).conclusion = s.conclusion
      ∧ (selectAllColumns b s).searchQuery = s.searchQuery
      ∧ (selectAllColumns b s).currentPage = s.currentPage
      ∧ (selectAllColumns b s).itemsPerPage = s.itemsPerPage) := by
  refine ⟨⟨?_, ?_, ?_⟩, ⟨?_, ?_, ?_⟩, ?_, ?_, ?_,
    ⟨rfl, rfl, rfl, rfl, rfl⟩, ⟨rfl, rfl, rfl, rfl, rfl⟩, ⟨rfl, rfl, rfl, rfl, rfl⟩⟩
  · simp [toggleColumnSelection]
  · simp [updateColumnConfig]
  · simp [selectAllColumns]
  · apply csv_map_id_of_preserve
    intro c
    by_cases hc : (c.id == cid) = true
    · simp [hc]
    · simp [hc]
  · apply csv_map_id_of_preserve
    intro c
    rfl
  · intro hu
    apply csv_map_id_of_preserve
    intro c
    by_cases hc : (c.id == cid) = true
    · simp [hc, applyUpdates, hu]
    · simp [hc]
  · apply forall2_map_self
    intro c
    by_cases hc : (c.id == cid) = true
    · rw [if_pos hc]
      have hceq : c.id = cid := by simpa using hc
      exact ⟨rfl, rfl, rfl, rfl, fun hn => absurd hceq hn, fun _ => rfl⟩
    · rw [if_neg hc]
      have hcne : c.id ≠ cid := by simpa using hc
      exact ⟨rfl, rfl, rfl, rfl, fun _ => rfl, fun he => absurd he hcne⟩
  · apply forall2_map_self
    intro c
    by_cases hc : (c.id == cid) = true
    · rw [if_pos hc]
      have hceq : c.id = cid := by simpa using hc
      refine ⟨fun hn => absurd hceq hn, fun _ => rfl, ?_, ?_, ?_, ?_, ?_⟩
      all_goals intro hu
      all_goals simp [applyUpdates, hu]
    · rw [if_neg hc]
      have hcne : c.id ≠ cid := by simpa using hc
      exact ⟨fun _ => rfl, fun he => absurd he hcne, fun _ => rfl, fun _ => rfl,
        fun _ => rfl, fun _ => rfl, fun _ => rfl⟩
  · apply forall2_map_self
    intro c
    exact ⟨rfl, rfl, rfl, rfl, rfl⟩

end Proofs
